import Mathlib

/-!
# Verification of the PSS2 CSV reader

A shallow embedding, in Lean 4, of the CSV-loading and chart-building logic
that is repeated (near verbatim) in `src/main.py`, `src/csv_reader.py` and
`src/pss2_csv_viewer.py` of the repository `OP-jerbe/PSS2_csv_reader`, together
with proofs of the testable properties of that logic.

Modelling conventions:
* A CSV file, once tokenised, is a `List (List String)` — one entry per line,
  one cell per field.  The filesystem is an abstract map
  `String → Option (List (List String))`; `none` models an unreadable or
  nonexistent file.  Opening the empty path always fails (POSIX `ENOENT`),
  which `read_file` hard-codes.
* Python `float` values are modelled as exact rationals (`ℚ`): every numeric
  literal that occurs in the program and in its input cells is a plain decimal
  literal, for which the rational value is the faithful specification of what
  the text denotes.  `pyFloat` models the builtin `float(str)` conversion on
  plain decimal literals (optional sign, digits, optional fractional part);
  exponents, `inf`/`nan`, underscores and surrounding whitespace are outside
  the domain of every claim and are not modelled.
* `pandas.Timestamp` values are modelled as a plain `DateTime` record; the
  nanosecond-epoch range restriction of pandas (years 1677–2262) is not
  modelled, no claim depends on it.
* Exceptions are modelled with `Option`: a `none` from `load_core` is exactly
  the situation in which the Python `try:` block raises and the `except`
  branch runs.
-/

/-- A digit character `'0'`–`'9'`. -/
def isDigit (c : Char) : Bool := '0' ≤ c && c ≤ '9'

/-- Numeric value of a list of digit characters read left to right,
`['0','4','2'].digitsVal = 42`. -/
def digitsVal (l : List Char) : ℕ :=
  l.foldl (fun acc c => 10 * acc + (c.toNat - 48)) 0

/-- Model of Python `float(s)` (as applied by `astype(float)` to each cell of
an object column) on plain decimal literals: `digits`, `digits.digits`,
`.digits`, `digits.`, with an optional leading sign.  Returns the exact
rational value. -/
def pyFloatCore (l : List Char) : Option ℚ :=
  let intPart := l.takeWhile isDigit
  let rest := l.dropWhile isDigit
  if rest = [] then
    if intPart = [] then none else some (Rat.divInt (digitsVal intPart) 1)
  else if rest.head? = some '.' ∧ rest.tail.dropWhile isDigit = [] then
    let fracPart := rest.tail.takeWhile isDigit
    if intPart = [] ∧ fracPart = [] then none
    else some (Rat.divInt
      ((digitsVal intPart : ℤ) * 10 ^ fracPart.length + (digitsVal fracPart : ℤ))
      ((10 : ℤ) ^ fracPart.length))
  else none

/-- Model of Python `float(s)`: optional sign, then a decimal literal. -/
def pyFloat (s : String) : Option ℚ :=
  if s.data.head? = some '-' then (pyFloatCore s.data.tail).map Neg.neg
  else if s.data.head? = some '+' then pyFloatCore s.data.tail
  else pyFloatCore s.data

/-- One pass of `re.sub(pat, '', s)` for a two-character pattern `[a, b]`:
scan left to right, delete each non-overlapping occurrence.  This is the
character-list core of `Series.str.replace(pat, '', regex=True)` for the
patterns `"kV"` and `"mA"`, which contain no regex metacharacters. -/
def removeSub2Aux (a b : Char) (pending : Option Char) : List Char → List Char
  | [] => match pending with
          | some p => [p]
          | none => []
  | c :: rest =>
      match pending with
      | some p =>
          if p = a ∧ c = b then removeSub2Aux a b none rest
          else p :: removeSub2Aux a b (some c) rest
      | none => removeSub2Aux a b (some c) rest

/-- The scan proper, on a whole character list (empty lookahead buffer). -/
def removeSub2 (a b : Char) (l : List Char) : List Char :=
  removeSub2Aux a b none l

/-- `s.str.replace(pat, '', regex=True)` on one cell, for a two-character
pattern given as a string. -/
def removeAll2 (pat : String) (s : String) : String :=
  match pat.data with
  | [a, b] => ⟨removeSub2 a b s.data⟩
  | _ => s

/-- A calendar instant, modelling a `pandas.Timestamp` at second precision
(the parse format carries no sub-second field).  `hour` is the 24-hour clock
value. -/
structure DateTime where
  year : ℕ
  month : ℕ
  day : ℕ
  hour : ℕ
  minute : ℕ
  second : ℕ
deriving DecidableEq, Repr

/-- Gregorian leap-year test, as used by `datetime`'s calendar validation. -/
def isLeapYear (y : ℕ) : Bool :=
  (y % 4 = 0 && y % 100 ≠ 0) || y % 400 = 0

/-- Days in a month of a given year (Gregorian). -/
def daysInMonth (y m : ℕ) : ℕ :=
  if m = 2 then (if isLeapYear y then 29 else 28)
  else if m = 4 ∨ m = 6 ∨ m = 9 ∨ m = 11 then 30
  else 31

/-- Expect the character `c` at the head of the stream. -/
def expectChar (c : Char) : List Char → Option (List Char)
  | [] => none
  | x :: rest => if x = c then some rest else none

/-- Model of `pd.to_datetime(cell, format="%m/%d/%Y %I:%M:%S %p")` on one
cell.  `%m`, `%d`, `%I`, `%M`, `%S` each match one or two digits (the greedy
digit scan is equivalent because every separator in the format is a
non-digit), `%Y` matches exactly four digits, `%p` matches `AM`/`PM`
case-insensitively; the whole cell must be consumed (`exact=True`), and the
field values must form a valid calendar instant, as `datetime` validates. -/
def parse_timestamp (s : String) : Option DateTime := do
  let l := s.data
  let moD := l.takeWhile isDigit
  let l := l.dropWhile isDigit
  if moD.length = 0 ∨ 2 < moD.length then none else
  let l ← expectChar '/' l
  let dayD := l.takeWhile isDigit
  let l := l.dropWhile isDigit
  if dayD.length = 0 ∨ 2 < dayD.length then none else
  let l ← expectChar '/' l
  let yearD := l.takeWhile isDigit
  let l := l.dropWhile isDigit
  if yearD.length ≠ 4 then none else
  let l ← expectChar ' ' l
  let hourD := l.takeWhile isDigit
  let l := l.dropWhile isDigit
  if hourD.length = 0 ∨ 2 < hourD.length then none else
  let l ← expectChar ':' l
  let minD := l.takeWhile isDigit
  let l := l.dropWhile isDigit
  if minD.length = 0 ∨ 2 < minD.length then none else
  let l ← expectChar ':' l
  let secD := l.takeWhile isDigit
  let l := l.dropWhile isDigit
  if secD.length = 0 ∨ 2 < secD.length then none else
  let l ← expectChar ' ' l
  let isPM ←
    match l with
    | [p, m] =>
        if p.toUpper = 'P' ∧ m.toUpper = 'M' then some true
        else if p.toUpper = 'A' ∧ m.toUpper = 'M' then some false
        else none
    | _ => none
  let mo := digitsVal moD
  let day := digitsVal dayD
  let year := digitsVal yearD
  let hr12 := digitsVal hourD
  let minute := digitsVal minD
  let second := digitsVal secD
  if 1 ≤ mo ∧ mo ≤ 12 ∧ 1 ≤ day ∧ day ≤ daysInMonth year mo ∧ 1 ≤ year ∧
      1 ≤ hr12 ∧ hr12 ≤ 12 ∧ minute ≤ 59 ∧ second ≤ 59 then
    let hour := if isPM then (if hr12 = 12 then 12 else hr12 + 12)
                else (if hr12 = 12 then 0 else hr12)
    some ⟨year, mo, day, hour, minute, second⟩
  else none

/-- `Option`-valued map over a list: fails when `f` fails on any element.
This is how pandas applies a fallible per-cell conversion to a column: the
first cell that fails to convert raises, and the whole operation fails. -/
def optMap {α β : Type} (f : α → Option β) : List α → Option (List β)
  | [] => some []
  | a :: as => do
      let b ← f a
      let bs ← optMap f as
      pure (b :: bs)

/-- Model of `read_csv`'s per-column dtype inference for the purpose of the
`.str` accessor: a non-empty column every cell of which parses as a number is
inferred numeric (`float64`/`int64`), and `.str` then raises.  An empty
column, or one with any non-numeric cell, is an object column and `.str`
applies per cell. -/
def column_is_numeric (cells : List String) : Bool :=
  !cells.isEmpty && cells.all (fun c => (pyFloat c).isSome)

/-- One cell of `df[col].str.replace(suffix, '', regex=True).astype(float)`:
delete every occurrence of the two-character pattern, then convert the
residual text with `float`. -/
def strip_to_float (suffix : String) (cell : String) : Option ℚ :=
  pyFloat (removeAll2 suffix cell)

/-- A whole column of
`df[col].str.replace(suffix, '', regex=True).astype(float)`: the `.str`
accessor raises on a numeric column; otherwise each cell is stripped and
converted, the first failing cell raising. -/
def str_col_to_float (suffix : String) (cells : List String) : Option (List ℚ) :=
  if column_is_numeric cells then none
  else optMap (strip_to_float suffix) cells

/-- The three columns extracted by
`pd.read_csv(filepath, skiprows=[1], usecols=[5, 6, 7])`:
line 0 is the header, line 1 is skipped, the remaining lines are data rows;
from each the cells at zero-indexed positions 5, 6 and 7 are selected, named
by the header cells at the same positions.  The result is the list of
(name, cells) columns in file order.  Fails when the file is empty, when the
header lacks position 7 (`usecols` out of range), or when a data row lacks
one of the selected positions.  (pandas NaN-fills a short data row instead;
no claim exercises ragged rows.) -/
def read_csv (rows : List (List String)) : Option (List (String × List String)) := do
  let header ← rows.head?
  let n5 ← header.get? 5
  let n6 ← header.get? 6
  let n7 ← header.get? 7
  let body := rows.drop 2
  let c5 ← optMap (fun r => r.get? 5) body
  let c6 ← optMap (fun r => r.get? 6) body
  let c7 ← optMap (fun r => r.get? 7) body
  pure [(n5, c5), (n6, c6), (n7, c7)]

/-- `df.rename(columns={old: new}, inplace=True)`: every column whose name is
`old` is renamed to `new`; cells are untouched. -/
def rename_col (old new : String) (cols : List (String × List String)) :
    List (String × List String) :=
  cols.map (fun nc => (if nc.1 = old then new else nc.1, nc.2))

/-- `df[name]`: the cells of the first column called `name`; `none` models the
`KeyError` when no column has that name. -/
def get_col (name : String) (cols : List (String × List String)) :
    Option (List String) :=
  (cols.find? (fun nc => nc.1 = name)).map (fun nc => nc.2)

/-- The three successive `df.rename(columns=..., inplace=True)` calls:
`TIME` to `Time`, `VOLTAGE` to `Voltage (kV)`, `AMPERE` to `Current (mA)`. -/
def rename_all (df : List (String × List String)) : List (String × List String) :=
  rename_col "AMPERE" "Current (mA)"
    (rename_col "VOLTAGE" "Voltage (kV)" (rename_col "TIME" "Time" df))

/-- The body of the `try:` block of `CSVLoader.load_test_data`, from the
`read_csv` call on: select columns 5–7, rename `TIME`/`VOLTAGE`/`AMPERE` to
the canonical names, parse the time column with the fixed timestamp format,
and strip-and-convert the voltage and current columns.  `none` is an
exception escaping the `try:` block. -/
def load_core (rows : List (List String)) :
    Option (List DateTime × List ℚ × List ℚ) := do
  let df0 ← read_csv rows
  let df := rename_all df0
  let timeCells ← get_col "Time" df
  let times ← optMap parse_timestamp timeCells
  let vCells ← get_col "Voltage (kV)" df
  let volts ← str_col_to_float "kV" vCells
  let cCells ← get_col "Current (mA)" df
  let currents ← str_col_to_float "mA" cCells
  pure (times, volts, currents)

/-- `os.path.basename` / `Path(p).name`: the final path component, i.e. the
characters after the last path separator (the whole path when it has no
separator). -/
def basename (p : String) : String :=
  ⟨(p.data.reverse.takeWhile (fun c => c ≠ '/')).reverse⟩

/-- The abstract filesystem: `none` is an unreadable or nonexistent file. -/
def Filesystem : Type := String → Option (List (List String))

/-- Opening a path for reading.  The empty path (a cancelled file picker)
never names a readable file. -/
def read_file (fs : Filesystem) (path : String) : Option (List (List String)) :=
  if path = "" then none else fs path

/-- The `TestData` dataclass: display title and the three parsed columns,
each absent (`None`) in the empty record. -/
structure TestData where
  csv_title : Option String
  time : Option (List DateTime)
  voltage : Option (List ℚ)
  current : Option (List ℚ)
deriving DecidableEq, Repr

/-- `TestData(csv_title=None, time=None, voltage=None, current=None)` — the
record returned by the `except` branch. -/
def empty_record : TestData := ⟨none, none, none, none⟩

/-- `CSVLoader.load_test_data(filepath)`: run the `try:` block; on success
return the fully populated record titled by the path's final component, on
any exception return the empty record.  Total by construction: no exception
escapes. -/
def load_test_data (fs : Filesystem) (filepath : String) : TestData :=
  match (read_file fs filepath).bind load_core with
  | some (t, v, c) => ⟨some (basename filepath), some t, some v, some c⟩
  | none => empty_record

/-- The diagnostic output of one `load_test_data` call: the `except` branch
prints a single `Error: ...` line (with traceback); the success path prints
nothing. -/
def load_test_data_log (fs : Filesystem) (filepath : String) : List String :=
  match (read_file fs filepath).bind load_core with
  | some _ => []
  | none => ["Error"]

/-- One `go.Scatter` trace as configured by `plot_test_data`. -/
structure Trace where
  x : List DateTime
  y : List ℚ
  mode : String
  name : String
  color : String
  yaxis : String
deriving DecidableEq, Repr

/-- The `go.Figure` fields that `plot_test_data` sets: the trace list and the
layout options of its single `update_layout` call.  Layout fields are
`Option`-valued; `none` is a plotly default left unset. -/
structure Figure where
  traces : List Trace
  title : Option String
  xaxis_title : Option String
  yaxis_range : Option (ℚ × ℚ)
  yaxis2_range : Option (ℚ × ℚ)
  showlegend : Option Bool
deriving DecidableEq, Repr

/-- `go.Figure()`: no traces, all layout fields at their defaults. -/
def Figure.empty : Figure := ⟨[], none, none, none, none, none⟩

/-- `fig.add_trace(t)`: append a trace. -/
def add_trace (fig : Figure) (t : Trace) : Figure :=
  { fig with traces := fig.traces ++ [t] }

/-- `plot_test_data(data)`, embedded by explicit state passing: the mutable
`fig` is threaded through the statements of the Python function, and the
`data` argument is threaded alongside it so that any mutation of the record
by the builder would show in the second component.  The voltage trace is
added when `data.time is not None and data.voltage is not None`, the current
trace (on axis `y2`) when `data.time is not None and data.current is not
None`; `update_layout` then fixes the title, axis ranges `[0, 41]` and
`[0, 0.061]`, and disables the legend.  (`fig.show()` is an external display
side effect with no bearing on the returned value.) -/
def plot_test_data (data : TestData) : Figure × TestData :=
  let fig := Figure.empty
  let fig :=
    match data.time, data.voltage with
    | some t, some v => add_trace fig ⟨t, v, "lines", "Voltage (kV)", "blue", "y"⟩
    | _, _ => fig
  let fig :=
    match data.time, data.current with
    | some t, some c => add_trace fig ⟨t, c, "lines", "Current (mA)", "red", "y2"⟩
    | _, _ => fig
  let fig :=
    { fig with
        title := data.csv_title
        xaxis_title := some "Time"
        yaxis_range := some (0, 41)
        yaxis2_range := some (0, Rat.divInt 61 1000)
        showlegend := some false }
  (fig, data)

/-- A fully populated record: all four fields present and the three sequences
of equal length (index-aligned). -/
def TestData.fully_populated (d : TestData) : Prop :=
  ∃ ti t v c, d.csv_title = some ti ∧ d.time = some t ∧ d.voltage = some v ∧
    d.current = some c ∧ v.length = t.length ∧ c.length = t.length

/-- A fully empty record: all four fields absent. -/
def TestData.fully_empty (d : TestData) : Prop := d = empty_record

/-! ### Concrete sample inputs, used to witness the theorems on live data -/

/-- The calendar instant 2023-06-15 14:30:00. -/
def sample_dt : DateTime := ⟨2023, 6, 15, 14, 30, 0⟩

/-- A header line with the standard column names at positions 5–7. -/
def sample_header : List String :=
  ["PSU", "MODE", "SETPT", "RAW", "EXTRA", "TIME", "VOLTAGE", "AMPERE"]

/-- The units/metadata line that `skiprows=[1]` discards. -/
def sample_units : List String :=
  ["-", "-", "-", "-", "-", "-", "kV", "mA"]

/-- One well-formed data row. -/
def sample_row : List String :=
  ["1", "AUTO", "40", "0", "0", "6/15/2023 2:30:00 PM", "12.5kV", "0.042mA"]

/-- A well-formed one-data-row CSV file. -/
def sample_rows : List (List String) :=
  [sample_header, sample_units, sample_row]

/-- A filesystem exposing the well-formed sample file at one path. -/
def sample_fs : Filesystem :=
  fun p => if p = "hv_tests/test1.csv" then some sample_rows else none

/-- A data row whose voltage cell carries the unit text as a prefix,
`"kV12.5"`, rather than as a suffix. -/
def sample_row_prefix_unit : List String :=
  ["1", "AUTO", "40", "0", "0", "6/15/2023 2:30:00 PM", "kV12.5", "0.042mA"]

/-- A CSV file whose voltage cell is `"kV12.5"`. -/
def sample_rows_prefix_unit : List (List String) :=
  [sample_header, sample_units, sample_row_prefix_unit]

/-- A filesystem exposing the prefix-unit sample file at one path. -/
def sample_fs_prefix_unit : Filesystem :=
  fun p => if p = "hv_tests/test2.csv" then some sample_rows_prefix_unit else none

/-- A filesystem on which every open fails. -/
def no_file_fs : Filesystem := fun _ => none

/-- The fully populated record that loading the sample file produces. -/
def sample_record : TestData :=
  ⟨some "test1.csv", some [sample_dt], some [Rat.divInt 25 2],
    some [Rat.divInt 21 500]⟩

/-! ## Basic lemmas about the embedding's building blocks -/

theorem optMap_length {α β : Type} {f : α → Option β} :
    ∀ {l : List α} {l' : List β}, optMap f l = some l' → l'.length = l.length
  | [], l', h => by
      simp only [optMap, Option.some.injEq] at h
      subst h; rfl
  | a :: as, l', h => by
      simp only [optMap, Option.bind_eq_bind, Option.bind_eq_some, Option.pure_def,
        Option.some.injEq] at h
      obtain ⟨b, _, bs, hbs, rfl⟩ := h
      simp [optMap_length hbs]

theorem optMap_get? {α β : Type} {f : α → Option β} :
    ∀ {l : List α} {l' : List β}, optMap f l = some l' →
      ∀ {i : ℕ} {a : α}, l.get? i = some a →
        ∃ b, f a = some b ∧ l'.get? i = some b
  | [], l', _, i, a, ha => by simp at ha
  | x :: xs, l', h, i, a, ha => by
      simp only [optMap, Option.bind_eq_bind, Option.bind_eq_some, Option.pure_def,
        Option.some.injEq] at h
      obtain ⟨b, hb, bs, hbs, rfl⟩ := h
      match i with
      | 0 =>
          simp only [List.get?] at ha
          cases ha
          exact ⟨b, hb, rfl⟩
      | i + 1 =>
          simp only [List.get?] at ha ⊢
          exact optMap_get? hbs ha

theorem removeSub2Aux_pending_clean {a b p : Char} (hp : p ≠ a) :
    ∀ {s : List Char}, (∀ c ∈ s, c ≠ a) → removeSub2Aux a b (some p) s = p :: s
  | [], _ => rfl
  | c :: cs, h => by
      have hc : c ≠ a := h c (by simp)
      have hcs : ∀ x ∈ cs, x ≠ a := fun x hx => h x (by simp [hx])
      simp only [removeSub2Aux, hp, false_and, if_false]
      exact congrArg (p :: ·) (removeSub2Aux_pending_clean hc hcs)

/-- A string with no occurrence of the pattern's first character passes
through the scan unchanged. -/
theorem removeSub2_clean {a b : Char} {s : List Char} (h : ∀ c ∈ s, c ≠ a) :
    removeSub2 a b s = s := by
  match s with
  | [] => rfl
  | c :: cs =>
      have hc : c ≠ a := h c (by simp)
      have hcs : ∀ x ∈ cs, x ≠ a := fun x hx => h x (by simp [hx])
      simpa [removeSub2, removeSub2Aux] using removeSub2Aux_pending_clean hc hcs

theorem removeSub2Aux_pending_suffix {a b p : Char} (hp : p ≠ a) :
    ∀ {s : List Char}, (∀ c ∈ s, c ≠ a) →
      removeSub2Aux a b (some p) (s ++ [a, b]) = p :: s
  | [], _ => by simp [removeSub2Aux, hp]
  | c :: cs, h => by
      have hc : c ≠ a := h c (by simp)
      have hcs : ∀ x ∈ cs, x ≠ a := fun x hx => h x (by simp [hx])
      simp only [List.cons_append, removeSub2Aux, hp, false_and, if_false]
      exact congrArg (p :: ·) (removeSub2Aux_pending_suffix hc hcs)

/-- The scan deletes a trailing occurrence of the pattern from a string whose
remainder has no occurrence of the pattern's first character. -/
theorem removeSub2_suffix {a b : Char} {s : List Char} (h : ∀ c ∈ s, c ≠ a) :
    removeSub2 a b (s ++ [a, b]) = s := by
  match s with
  | [] => simp [removeSub2, removeSub2Aux]
  | c :: cs =>
      have hc : c ≠ a := h c (by simp)
      have hcs : ∀ x ∈ cs, x ≠ a := fun x hx => h x (by simp [hx])
      simpa [removeSub2, removeSub2Aux] using removeSub2Aux_pending_suffix hc hcs

/-- The scan deletes a leading occurrence of the pattern from a string whose
remainder has no occurrence of the pattern's first character. -/
theorem removeSub2_leading {a b : Char} {s : List Char} (h : ∀ c ∈ s, c ≠ a) :
    removeSub2 a b (a :: b :: s) = s := by
  simp only [removeSub2, removeSub2Aux, and_self, if_true, true_and]
  exact removeSub2_clean h

/-- Every character of a cell accepted by `pyFloatCore` is a digit or the
decimal point. -/
theorem pyFloatCore_chars {l : List Char} {q : ℚ} (h : pyFloatCore l = some q) :
    ∀ c ∈ l, isDigit c ∨ c = '.' := by
  intro c hc
  rw [← List.takeWhile_append_dropWhile (p := isDigit) (l := l)] at hc
  rcases List.mem_append.1 hc with htake | hdrop
  · exact Or.inl (List.mem_takeWhile_imp htake)
  · simp only [pyFloatCore] at h
    by_cases h1 : l.dropWhile isDigit = []
    · rw [h1] at hdrop; simp at hdrop
    · rw [if_neg h1] at h
      by_cases h2 : (l.dropWhile isDigit).head? = some '.' ∧
          (l.dropWhile isDigit).tail.dropWhile isDigit = []
      · rcases hrest : l.dropWhile isDigit with _ | ⟨r, rest2⟩
        · exact absurd hrest h1
        · rw [hrest] at h2 hdrop
          obtain ⟨hhead, htail⟩ := h2
          simp only [List.head?, Option.some.injEq] at hhead
          simp only [List.tail_cons] at htail
          rw [hhead] at hdrop
          rcases List.mem_cons.1 hdrop with h4 | hdrop2
          · exact Or.inr h4
          · left
            rw [← List.takeWhile_append_dropWhile (p := isDigit) (l := rest2), htail,
              List.append_nil] at hdrop2
            exact List.mem_takeWhile_imp hdrop2
      · rw [if_neg h2] at h
        exact absurd h (by simp)

/-- Every character of a cell accepted by `pyFloat` is a digit, the decimal
point, or a leading sign. -/
theorem pyFloat_chars {s : String} {q : ℚ} (h : pyFloat s = some q) :
    ∀ c ∈ s.data, isDigit c ∨ c = '.' ∨ c = '-' ∨ c = '+' := by
  intro c hc
  simp only [pyFloat] at h
  by_cases h1 : s.data.head? = some '-'
  · rw [if_pos h1] at h
    rcases hs : s.data with _ | ⟨c0, rest⟩
    · rw [hs] at hc; simp at hc
    · rw [hs] at h1 hc h
      simp only [List.head?, Option.some.injEq] at h1
      simp only [List.tail_cons] at h
      rcases List.mem_cons.1 hc with rfl | hc2
      · exact Or.inr (Or.inr (Or.inl h1))
      · rcases Option.map_eq_some'.1 h with ⟨q', hq', _⟩
        rcases pyFloatCore_chars hq' c hc2 with hd | hd
        · exact Or.inl hd
        · exact Or.inr (Or.inl hd)
  · rw [if_neg h1] at h
    by_cases h2 : s.data.head? = some '+'
    · rw [if_pos h2] at h
      rcases hs : s.data with _ | ⟨c0, rest⟩
      · rw [hs] at hc; simp at hc
      · rw [hs] at h2 hc h
        simp only [List.head?, Option.some.injEq] at h2
        simp only [List.tail_cons] at h
        rcases List.mem_cons.1 hc with rfl | hc2
        · exact Or.inr (Or.inr (Or.inr h2))
        · rcases pyFloatCore_chars h c hc2 with hd | hd
          · exact Or.inl hd
          · exact Or.inr (Or.inl hd)
    · rw [if_neg h2] at h
      rcases pyFloatCore_chars h c hc with hd | hd
      · exact Or.inl hd
      · exact Or.inr (Or.inl hd)

/-- A cell accepted by `pyFloat` never contains a letter; in particular it
contains neither the `k` of `kV` nor the `m` of `mA`. -/
theorem pyFloat_no_letter {s : String} {q : ℚ} (h : pyFloat s = some q)
    {a : Char} (ha : ¬(isDigit a ∨ a = '.' ∨ a = '-' ∨ a = '+')) :
    ∀ c ∈ s.data, c ≠ a := by
  intro c hc he
  subst he
  exact ha (pyFloat_chars h c hc)

/-- `removeAll2` with the concrete pattern `"kV"` is the two-character scan. -/
theorem removeAll2_kV (s : String) :
    removeAll2 "kV" s = ⟨removeSub2 'k' 'V' s.data⟩ := rfl

/-- `removeAll2` with the concrete pattern `"mA"` is the two-character scan. -/
theorem removeAll2_mA (s : String) :
    removeAll2 "mA" s = ⟨removeSub2 'm' 'A' s.data⟩ := rfl

/-- Strings are equal when their character lists are. -/
theorem string_mk_data (s : String) : String.mk s.data = s := rfl

/-- Stripping `"kV"` from a cell of the form `numeric ++ "kV"` and converting
yields exactly the parse of the numeric prefix. -/
theorem strip_to_float_kV_suffix {s : String} {q : ℚ} (hs : pyFloat s = some q) :
    strip_to_float "kV" (s ++ "kV") = some q := by
  have hchar : ∀ c ∈ s.data, c ≠ 'k' := pyFloat_no_letter hs (by decide)
  rw [strip_to_float, removeAll2_kV, String.data_append]
  have hkv : ("kV" : String).data = ['k', 'V'] := rfl
  rw [hkv, removeSub2_suffix hchar, string_mk_data]
  exact hs

/-- Stripping `"mA"` from a cell of the form `numeric ++ "mA"` and converting
yields exactly the parse of the numeric prefix. -/
theorem strip_to_float_mA_suffix {s : String} {q : ℚ} (hs : pyFloat s = some q) :
    strip_to_float "mA" (s ++ "mA") = some q := by
  have hchar : ∀ c ∈ s.data, c ≠ 'm' := pyFloat_no_letter hs (by decide)
  rw [strip_to_float, removeAll2_mA, String.data_append]
  have hma : ("mA" : String).data = ['m', 'A'] := rfl
  rw [hma, removeSub2_suffix hchar, string_mk_data]
  exact hs

/-- Stripping `"kV"` from a cell of the form `"kV" ++ numeric` — the unit
text as a prefix rather than a suffix — also yields the parse of the numeric
residue. -/
theorem strip_to_float_kV_leading {s : String} {q : ℚ} (hs : pyFloat s = some q) :
    strip_to_float "kV" ("kV" ++ s) = some q := by
  have hchar : ∀ c ∈ s.data, c ≠ 'k' := pyFloat_no_letter hs (by decide)
  rw [strip_to_float, removeAll2_kV, String.data_append]
  have hkv : ("kV" : String).data = ['k', 'V'] := rfl
  rw [hkv]
  show pyFloat ⟨removeSub2 'k' 'V' ('k' :: 'V' :: s.data)⟩ = some q
  rw [removeSub2_leading hchar, string_mk_data]
  exact hs

/-- Stripping `"mA"` from a cell of the form `"mA" ++ numeric` also yields
the parse of the numeric residue. -/
theorem strip_to_float_mA_leading {s : String} {q : ℚ} (hs : pyFloat s = some q) :
    strip_to_float "mA" ("mA" ++ s) = some q := by
  have hchar : ∀ c ∈ s.data, c ≠ 'm' := pyFloat_no_letter hs (by decide)
  rw [strip_to_float, removeAll2_mA, String.data_append]
  have hma : ("mA" : String).data = ['m', 'A'] := rfl
  rw [hma]
  show pyFloat ⟨removeSub2 'm' 'A' ('m' :: 'A' :: s.data)⟩ = some q
  rw [removeSub2_leading hchar, string_mk_data]
  exact hs

/-! ## Decomposition lemmas for the loader pipeline -/

theorem read_csv_eq {rows : List (List String)} {cols : List (String × List String)}
    (h : read_csv rows = some cols) :
    ∃ header n5 n6 n7 c5 c6 c7,
      rows.head? = some header ∧
      header.get? 5 = some n5 ∧ header.get? 6 = some n6 ∧ header.get? 7 = some n7 ∧
      optMap (fun r => r.get? 5) (rows.drop 2) = some c5 ∧
      optMap (fun r => r.get? 6) (rows.drop 2) = some c6 ∧
      optMap (fun r => r.get? 7) (rows.drop 2) = some c7 ∧
      cols = [(n5, c5), (n6, c6), (n7, c7)] := by
  simp only [read_csv, Option.bind_eq_bind, Option.bind_eq_some, Option.pure_def,
    Option.some.injEq] at h
  obtain ⟨header, hh, n5, h5, n6, h6, n7, h7, c5, hc5, c6, hc6, c7, hc7, hcols⟩ := h
  exact ⟨header, n5, n6, n7, c5, c6, c7, hh, h5, h6, h7, hc5, hc6, hc7, hcols.symm⟩

theorem load_core_eq {rows : List (List String)}
    {t : List DateTime} {v c : List ℚ} (h : load_core rows = some (t, v, c)) :
    ∃ df0 timeCells vCells cCells,
      read_csv rows = some df0 ∧
      get_col "Time" (rename_all df0) = some timeCells ∧
      optMap parse_timestamp timeCells = some t ∧
      get_col "Voltage (kV)" (rename_all df0) = some vCells ∧
      str_col_to_float "kV" vCells = some v ∧
      get_col "Current (mA)" (rename_all df0) = some cCells ∧
      str_col_to_float "mA" cCells = some c := by
  simp only [load_core, Option.bind_eq_bind, Option.bind_eq_some, Option.pure_def,
    Option.some.injEq] at h
  obtain ⟨df0, hdf0, timeCells, htc, t', ht', vCells, hvc, v', hv', cCells, hcc,
    c', hc', heq⟩ := h
  obtain ⟨rfl, rfl, rfl⟩ : t' = t ∧ v' = v ∧ c' = c := by
    refine ⟨?_, ?_, ?_⟩ <;> cases heq <;> rfl
  exact ⟨df0, timeCells, vCells, cCells, hdf0, htc, ht', hvc, hv', hcc, hc'⟩

theorem get_col_mem {name : String} {cols : List (String × List String)}
    {cells : List String} (h : get_col name cols = some cells) :
    ∃ nc ∈ cols, nc.2 = cells := by
  simp only [get_col, Option.map_eq_some'] at h
  obtain ⟨nc, hfind, rfl⟩ := h
  exact ⟨nc, List.mem_of_find?_eq_some hfind, rfl⟩

theorem rename_col_mem {old new : String} {cols : List (String × List String)}
    {nc : String × List String} (h : nc ∈ rename_col old new cols) :
    ∃ mc ∈ cols, mc.2 = nc.2 := by
  simp only [rename_col, List.mem_map] at h
  obtain ⟨mc, hmc, rfl⟩ := h
  exact ⟨mc, hmc, rfl⟩

theorem rename_all_mem {cols : List (String × List String)}
    {nc : String × List String} (h : nc ∈ rename_all cols) :
    ∃ mc ∈ cols, mc.2 = nc.2 := by
  simp only [rename_all] at h
  obtain ⟨m1, hm1, he1⟩ := rename_col_mem h
  obtain ⟨m2, hm2, he2⟩ := rename_col_mem hm1
  obtain ⟨m3, hm3, he3⟩ := rename_col_mem hm2
  exact ⟨m3, hm3, by rw [he3, he2, he1]⟩

theorem str_col_to_float_eq {suffix : String} {cells : List String} {v : List ℚ}
    (h : str_col_to_float suffix cells = some v) :
    column_is_numeric cells = false ∧
      optMap (strip_to_float suffix) cells = some v := by
  by_cases hn : column_is_numeric cells
  · simp [str_col_to_float, hn] at h
  · refine ⟨by simpa using hn, ?_⟩
    simpa [str_col_to_float, hn] using h

/-- Every column produced by `read_csv` has one cell per data row. -/
theorem read_csv_col_length {rows : List (List String)}
    {cols : List (String × List String)} (h : read_csv rows = some cols) :
    ∀ nc ∈ cols, nc.2.length = (rows.drop 2).length := by
  obtain ⟨header, n5, n6, n7, c5, c6, c7, _, _, _, _, hc5, hc6, hc7, rfl⟩ :=
    read_csv_eq h
  intro nc hnc
  simp only [List.mem_cons, List.not_mem_nil, or_false] at hnc
  rcases hnc with rfl | rfl | rfl
  · exact optMap_length hc5
  · exact optMap_length hc6
  · exact optMap_length hc7

/-- The three sequences produced by the `try:` block all have one entry per
data row of the input. -/
theorem load_core_lengths {rows : List (List String)}
    {t : List DateTime} {v c : List ℚ} (h : load_core rows = some (t, v, c)) :
    t.length = (rows.drop 2).length ∧ v.length = (rows.drop 2).length ∧
      c.length = (rows.drop 2).length := by
  obtain ⟨df0, timeCells, vCells, cCells, hdf0, htc, ht, hvc, hv, hcc, hc⟩ :=
    load_core_eq h
  have hlen : ∀ {name : String} {cells : List String},
      get_col name (rename_all df0) = some cells →
        cells.length = (rows.drop 2).length := by
    intro name cells hget
    obtain ⟨nc, hnc, he⟩ := get_col_mem hget
    obtain ⟨mc, hmc, he2⟩ := rename_all_mem hnc
    rw [← he, ← he2]
    exact read_csv_col_length hdf0 mc hmc
  refine ⟨?_, ?_, ?_⟩
  · rw [optMap_length ht]; exact hlen htc
  · rw [optMap_length (str_col_to_float_eq hv).2]; exact hlen hvc
  · rw [optMap_length (str_col_to_float_eq hc).2]; exact hlen hcc

theorem rename_all_standard (c5 c6 c7 : List String) :
    rename_all [("TIME", c5), ("VOLTAGE", c6), ("AMPERE", c7)] =
      [("Time", c5), ("Voltage (kV)", c6), ("Current (mA)", c7)] := rfl

theorem get_col_standard_time (c5 c6 c7 : List String) :
    get_col "Time" [("Time", c5), ("Voltage (kV)", c6), ("Current (mA)", c7)] =
      some c5 := rfl

theorem get_col_standard_voltage (c5 c6 c7 : List String) :
    get_col "Voltage (kV)"
      [("Time", c5), ("Voltage (kV)", c6), ("Current (mA)", c7)] = some c6 := rfl

theorem get_col_standard_current (c5 c6 c7 : List String) :
    get_col "Current (mA)"
      [("Time", c5), ("Voltage (kV)", c6), ("Current (mA)", c7)] = some c7 := rfl

/-- On a file with the standard header names `TIME`, `VOLTAGE`, `AMPERE` at
positions 5, 6, 7, a successful `try:` block parses the timestamp column at
position 5 into `t`, the `kV`-stripped column at position 6 into `v`, and the
`mA`-stripped column at position 7 into `c`, cell by cell. -/
theorem load_core_standard {rows : List (List String)} {header : List String}
    {t : List DateTime} {v c : List ℚ}
    (hh : rows.head? = some header)
    (h5 : header.get? 5 = some "TIME") (h6 : header.get? 6 = some "VOLTAGE")
    (h7 : header.get? 7 = some "AMPERE")
    (h : load_core rows = some (t, v, c)) :
    ∃ c5 c6 c7,
      optMap (fun r => r.get? 5) (rows.drop 2) = some c5 ∧
      optMap (fun r => r.get? 6) (rows.drop 2) = some c6 ∧
      optMap (fun r => r.get? 7) (rows.drop 2) = some c7 ∧
      optMap parse_timestamp c5 = some t ∧
      optMap (strip_to_float "kV") c6 = some v ∧
      optMap (strip_to_float "mA") c7 = some c := by
  obtain ⟨df0, timeCells, vCells, cCells, hdf0, htc, ht, hvc, hv, hcc, hc⟩ :=
    load_core_eq h
  obtain ⟨header', n5, n6, n7, c5, c6, c7, hh', h5', h6', h7', hc5, hc6, hc7, rfl⟩ :=
    read_csv_eq hdf0
  rw [hh] at hh'
  obtain rfl : header = header' := Option.some.inj hh'
  rw [h5] at h5'
  obtain rfl : n5 = "TIME" := (Option.some.inj h5').symm
  rw [h6] at h6'
  obtain rfl : n6 = "VOLTAGE" := (Option.some.inj h6').symm
  rw [h7] at h7'
  obtain rfl : n7 = "AMPERE" := (Option.some.inj h7').symm
  rw [rename_all_standard, get_col_standard_time] at htc
  obtain rfl : c5 = timeCells := Option.some.inj htc
  rw [rename_all_standard, get_col_standard_voltage] at hvc
  obtain rfl : c6 = vCells := Option.some.inj hvc
  rw [rename_all_standard, get_col_standard_current] at hcc
  obtain rfl : c7 = cCells := Option.some.inj hcc
  exact ⟨c5, c6, c7, hc5, hc6, hc7, ht,
    (str_col_to_float_eq hv).2, (str_col_to_float_eq hc).2⟩

theorem removeSub2Aux_pending_middle {a b p : Char} (hp : p ≠ a) :
    ∀ {s1 : List Char}, (∀ c ∈ s1, c ≠ a) → ∀ {s2 : List Char},
      (∀ c ∈ s2, c ≠ a) →
      removeSub2Aux a b (some p) (s1 ++ a :: b :: s2) = p :: (s1 ++ s2)
  | [], _, s2, h2 => by
      simp only [List.nil_append, removeSub2Aux, hp, false_and, if_false,
        and_self, if_true]
      exact congrArg (p :: ·) (removeSub2_clean h2)
  | c :: cs, h1, s2, h2 => by
      have hc : c ≠ a := h1 c (by simp)
      have hcs : ∀ x ∈ cs, x ≠ a := fun x hx => h1 x (by simp [hx])
      simp only [List.cons_append, removeSub2Aux, hp, false_and, if_false]
      exact congrArg (p :: ·) (removeSub2Aux_pending_middle hc hcs h2)

/-- The scan deletes an occurrence of the pattern ANYWHERE in the string, as
long as the surrounding text has no occurrence of the pattern's first
character. -/
theorem removeSub2_middle {a b : Char} {s1 s2 : List Char}
    (h1 : ∀ c ∈ s1, c ≠ a) (h2 : ∀ c ∈ s2, c ≠ a) :
    removeSub2 a b (s1 ++ a :: b :: s2) = s1 ++ s2 := by
  match s1 with
  | [] =>
      simp only [List.nil_append]
      exact removeSub2_leading h2
  | c :: cs =>
      have hc : c ≠ a := h1 c (by simp)
      have hcs : ∀ x ∈ cs, x ≠ a := fun x hx => h1 x (by simp [hx])
      simpa [removeSub2, removeSub2Aux] using
        removeSub2Aux_pending_middle hc hcs h2

/-! ## The claims -/

/-- C1: for every filesystem and path, the record returned by
`load_test_data` is either fully populated — `title`, `time`, `voltage`,
`current` all present with the three sequences of equal length, index-aligned
by row — or fully empty, with all four fields absent; no call ever returns a
partially populated record. -/
theorem C1_load_fully_populated_or_fully_empty (fs : Filesystem) (path : String) :
    (load_test_data fs path).fully_populated ∨
      (load_test_data fs path).fully_empty := by
  rcases hl : (read_file fs path).bind load_core with _ | ⟨t, v, c⟩
  · right
    show load_test_data fs path = empty_record
    simp [load_test_data, hl]
  · left
    have hload : load_test_data fs path =
        ⟨some (basename path), some t, some v, some c⟩ := by
      simp [load_test_data, hl]
    rcases hr : read_file fs path with _ | rows
    · rw [hr] at hl; simp at hl
    · rw [hr, Option.some_bind] at hl
      obtain ⟨h1, h2, h3⟩ := load_core_lengths hl
      rw [hload]
      exact ⟨basename path, t, v, c, rfl, rfl, rfl, rfl, by rw [h2, h1],
        by rw [h3, h1]⟩

/-- C2: whenever the parse fails (missing column, malformed timestamp,
non-numeric residual after suffix stripping, unreadable or nonexistent
file — all the ways `load_core` can yield `none`), `load_test_data` returns
the fully empty record and logs one error line; being a total function, it
propagates no exception to its caller. -/
theorem C2_parse_failure_gives_empty_record (fs : Filesystem) (path : String)
    (hfail : (read_file fs path).bind load_core = none) :
    load_test_data fs path = empty_record ∧
      load_test_data_log fs path = ["Error"] := by
  constructor
  · simp [load_test_data, hfail]
  · simp [load_test_data_log, hfail]

/-- Witness for C2 on a nonexistent file. -/
theorem C2_parse_failure_gives_empty_record_witness :
    load_test_data no_file_fs "missing.csv" = empty_record ∧
      load_test_data_log no_file_fs "missing.csv" = ["Error"] :=
  C2_parse_failure_gives_empty_record no_file_fs "missing.csv" (by decide)

/-- C8: the chart builder leaves the record unchanged: the record threaded
through `plot_test_data` comes back with `title`, `time`, `voltage` and
`current` exactly as they were before the call. -/
theorem C8_build_leaves_record_unchanged (data : TestData) :
    (plot_test_data data).2 = data := rfl

/-- C10: when the file picker is cancelled and the entry point passes the
empty-string path straight to `load_test_data`, the loader returns the fully
empty record instead of raising, and the pipeline continues into a chart
with zero traces. -/
theorem C10_empty_path_empty_record_empty_chart (fs : Filesystem) :
    load_test_data fs "" = empty_record ∧
      (plot_test_data (load_test_data fs "")).1.traces = [] := by
  have h : load_test_data fs "" = empty_record := by
    simp [load_test_data, read_file]
  exact ⟨h, by rw [h]; rfl⟩

/-- C3: for a well-formed input file (row 0 a header, row 1 discarded, N
data rows — exactly the inputs on which the `try:` block succeeds),
`load_test_data` returns a record whose `time`, `voltage` and `current`
sequences each have exactly N = `(rows.drop 2).length` entries,
index-aligned. -/
theorem C3_well_formed_N_rows_N_entries (fs : Filesystem) (path : String)
    (rows : List (List String)) (t : List DateTime) (v c : List ℚ)
    (hr : read_file fs path = some rows)
    (hl : load_core rows = some (t, v, c)) :
    load_test_data fs path = ⟨some (basename path), some t, some v, some c⟩ ∧
      t.length = (rows.drop 2).length ∧ v.length = (rows.drop 2).length ∧
      c.length = (rows.drop 2).length := by
  refine ⟨?_, load_core_lengths hl⟩
  simp [load_test_data, hr, hl]

/-- Witness for C3 on the one-data-row sample file. -/
theorem C3_well_formed_N_rows_N_entries_witness :
    load_test_data sample_fs "hv_tests/test1.csv" =
      ⟨some (basename "hv_tests/test1.csv"), some [sample_dt],
        some [Rat.divInt 25 2], some [Rat.divInt 21 500]⟩ ∧
      [sample_dt].length = (sample_rows.drop 2).length ∧
      ([Rat.divInt 25 2] : List ℚ).length = (sample_rows.drop 2).length ∧
      ([Rat.divInt 21 500] : List ℚ).length = (sample_rows.drop 2).length :=
  C3_well_formed_N_rows_N_entries sample_fs "hv_tests/test1.csv" sample_rows
    [sample_dt] [Rat.divInt 25 2] [Rat.divInt 21 500] (by decide) (by decide)

/-- C7: whenever the load succeeds (the returned record is not the empty
one), its title is the final path component of the input path. -/
theorem C7_title_is_final_path_component (fs : Filesystem) (path : String)
    (hsucc : load_test_data fs path ≠ empty_record) :
    (load_test_data fs path).csv_title = some (basename path) := by
  rcases hl : (read_file fs path).bind load_core with _ | ⟨t, v, c⟩
  · exact absurd (by simp [load_test_data, hl]) hsucc
  · simp [load_test_data, hl]

/-- Witness for C7 on the sample file. -/
theorem C7_title_is_final_path_component_witness :
    (load_test_data sample_fs "hv_tests/test1.csv").csv_title =
      some (basename "hv_tests/test1.csv") :=
  C7_title_is_final_path_component sample_fs "hv_tests/test1.csv" (by decide)

/-- C6: the chart built from a fully populated record has exactly two
traces — the voltage trace on the primary axis `y`, the current trace on the
secondary axis `y2`; the chart built from the fully empty record has zero
traces; and in every case the primary-axis range is exactly [0, 41] and the
secondary-axis range exactly [0, 0.061], independent of the data. -/
theorem C6_chart_traces_and_fixed_ranges (data : TestData) :
    (data.fully_populated →
      (plot_test_data data).1.traces.length = 2 ∧
      (plot_test_data data).1.traces.map (fun tr => (tr.name, tr.yaxis)) =
        [("Voltage (kV)", "y"), ("Current (mA)", "y2")]) ∧
    (data.fully_empty → (plot_test_data data).1.traces = []) ∧
    (plot_test_data data).1.yaxis_range = some ((0 : ℚ), (41 : ℚ)) ∧
    (plot_test_data data).1.yaxis2_range = some ((0 : ℚ), Rat.divInt 61 1000) := by
  refine ⟨?_, ?_, ?_, ?_⟩
  · rintro ⟨ti, t, v, c, hti, ht, hv, hc, _, _⟩
    rcases data with ⟨dti, dt, dv, dc⟩
    simp only at hti ht hv hc
    subst hti; subst ht; subst hv; subst hc
    simp [plot_test_data, add_trace, Figure.empty]
  · rintro rfl
    rfl
  · rcases data with ⟨dti, dt, dv, dc⟩
    rcases dt <;> rcases dv <;> rcases dc <;> rfl
  · rcases data with ⟨dti, dt, dv, dc⟩
    rcases dt <;> rcases dv <;> rcases dc <;> rfl

/-- Witness for C6 on the populated sample record and the empty record. -/
theorem C6_chart_traces_and_fixed_ranges_witness :
    ((plot_test_data sample_record).1.traces.length = 2 ∧
      (plot_test_data sample_record).1.traces.map (fun tr => (tr.name, tr.yaxis)) =
        [("Voltage (kV)", "y"), ("Current (mA)", "y2")]) ∧
    (plot_test_data empty_record).1.traces = [] :=
  ⟨(C6_chart_traces_and_fixed_ranges sample_record).1
      ⟨"test1.csv", [sample_dt], [Rat.divInt 25 2], [Rat.divInt 21 500],
        rfl, rfl, rfl, rfl, rfl, rfl⟩,
    (C6_chart_traces_and_fixed_ranges empty_record).2.1 rfl⟩

/-- C4: for well-formed input (standard header; cells shaped
`numeric ++ "kV"` / `numeric ++ "mA"`), each voltage entry of the loaded
record equals the parse of the numeric prefix before the literal `kV`
suffix of the corresponding source cell (column 6 of data row i), and each
current entry equals the parse of the prefix before `mA` (column 7). -/
theorem C4_values_are_numeric_prefix_before_unit (fs : Filesystem) (path : String)
    (rows : List (List String)) (header : List String)
    (t : List DateTime) (v c : List ℚ) (i : ℕ) (row : List String)
    (sv sc : String) (qv qc : ℚ)
    (hr : read_file fs path = some rows)
    (hh : rows.head? = some header)
    (h5 : header.get? 5 = some "TIME") (h6 : header.get? 6 = some "VOLTAGE")
    (h7 : header.get? 7 = some "AMPERE")
    (hl : load_core rows = some (t, v, c))
    (hrow : (rows.drop 2).get? i = some row)
    (hvcell : row.get? 6 = some (sv ++ "kV")) (hqv : pyFloat sv = some qv)
    (hccell : row.get? 7 = some (sc ++ "mA")) (hqc : pyFloat sc = some qc) :
    (load_test_data fs path).voltage = some v ∧
      (load_test_data fs path).current = some c ∧
      v.get? i = some qv ∧ c.get? i = some qc := by
  obtain ⟨c5, c6, c7, hc5, hc6, hc7, ht, hvm, hcm⟩ :=
    load_core_standard hh h5 h6 h7 hl
  refine ⟨by simp [load_test_data, hr, hl], by simp [load_test_data, hr, hl],
    ?_, ?_⟩
  · obtain ⟨cell, hcell, hc6i⟩ := optMap_get? hc6 hrow
    have hcell2 : row.get? 6 = some cell := hcell
    rw [hvcell] at hcell2
    obtain rfl : sv ++ "kV" = cell := Option.some.inj hcell2
    obtain ⟨b, hstrip, hvi⟩ := optMap_get? hvm hc6i
    rw [strip_to_float_kV_suffix hqv] at hstrip
    obtain rfl : qv = b := Option.some.inj hstrip
    exact hvi
  · obtain ⟨cell, hcell, hc7i⟩ := optMap_get? hc7 hrow
    have hcell2 : row.get? 7 = some cell := hcell
    rw [hccell] at hcell2
    obtain rfl : sc ++ "mA" = cell := Option.some.inj hcell2
    obtain ⟨b, hstrip, hci⟩ := optMap_get? hcm hc7i
    rw [strip_to_float_mA_suffix hqc] at hstrip
    obtain rfl : qc = b := Option.some.inj hstrip
    exact hci

/-- Witness for C4: `"12.5kV"` parses to 12.5 and `"0.042mA"` to 0.042 in
the loaded sample record. -/
theorem C4_values_are_numeric_prefix_before_unit_witness :
    (load_test_data sample_fs "hv_tests/test1.csv").voltage =
        some [Rat.divInt 25 2] ∧
      (load_test_data sample_fs "hv_tests/test1.csv").current =
        some [Rat.divInt 21 500] ∧
      ([Rat.divInt 25 2] : List ℚ).get? 0 = some (Rat.divInt 25 2) ∧
      ([Rat.divInt 21 500] : List ℚ).get? 0 = some (Rat.divInt 21 500) :=
  C4_values_are_numeric_prefix_before_unit sample_fs "hv_tests/test1.csv"
    sample_rows sample_header [sample_dt] [Rat.divInt 25 2] [Rat.divInt 21 500]
    0 sample_row "12.5" "0.042" (Rat.divInt 25 2) (Rat.divInt 21 500)
    (by decide) (by decide) (by decide) (by decide) (by decide) (by decide)
    (by decide) (by decide) (by decide) (by decide) (by decide)

/-- C5: the loader parses each timestamp cell (column 5 of each data row)
with the fixed pattern month/day/year 12-hour-time AM|PM — entry i of the
time sequence is exactly `parse_timestamp` of data cell i — and in
particular `"6/15/2023 2:30:00 PM"` parses to the calendar instant
2023-06-15 14:30:00. -/
theorem C5_timestamp_fixed_format (fs : Filesystem) (path : String)
    (rows : List (List String)) (header : List String)
    (t : List DateTime) (v c : List ℚ) (i : ℕ) (row : List String)
    (cell : String)
    (hr : read_file fs path = some rows)
    (hh : rows.head? = some header)
    (h5 : header.get? 5 = some "TIME") (h6 : header.get? 6 = some "VOLTAGE")
    (h7 : header.get? 7 = some "AMPERE")
    (hl : load_core rows = some (t, v, c))
    (hrow : (rows.drop 2).get? i = some row)
    (hcell : row.get? 5 = some cell) :
    ((load_test_data fs path).time = some t ∧
      t.get? i = parse_timestamp cell) ∧
      parse_timestamp "6/15/2023 2:30:00 PM" =
        some ⟨2023, 6, 15, 14, 30, 0⟩ := by
  refine ⟨⟨by simp [load_test_data, hr, hl], ?_⟩, by decide⟩
  obtain ⟨c5, c6, c7, hc5, hc6, hc7, ht, hvm, hcm⟩ :=
    load_core_standard hh h5 h6 h7 hl
  obtain ⟨cell', hcell', hc5i⟩ := optMap_get? hc5 hrow
  have hcell2 : row.get? 5 = some cell' := hcell'
  rw [hcell] at hcell2
  obtain rfl : cell = cell' := Option.some.inj hcell2
  obtain ⟨dt, hdt, hti⟩ := optMap_get? ht hc5i
  rw [hti, hdt]

/-- Witness for C5 on the sample file's timestamp cell. -/
theorem C5_timestamp_fixed_format_witness :
    ((load_test_data sample_fs "hv_tests/test1.csv").time = some [sample_dt] ∧
      ([sample_dt] : List DateTime).get? 0 =
        parse_timestamp "6/15/2023 2:30:00 PM") ∧
      parse_timestamp "6/15/2023 2:30:00 PM" =
        some ⟨2023, 6, 15, 14, 30, 0⟩ :=
  C5_timestamp_fixed_format sample_fs "hv_tests/test1.csv" sample_rows
    sample_header [sample_dt] [Rat.divInt 25 2] [Rat.divInt 21 500] 0
    sample_row "6/15/2023 2:30:00 PM" (by decide) (by decide) (by decide)
    (by decide) (by decide) (by decide) (by decide) (by decide)

/-- C9 (implicit): the unit-suffix stripping removes every occurrence of
`kV` (resp. `mA`) anywhere in the value cell — not only a trailing suffix —
so a cell whose surrounding text parses as a number succeeds wherever the
unit text sits; in particular loading a file whose voltage cell is
`"kV12.5"` succeeds and yields 12.5. -/
theorem C9_unit_text_removed_anywhere_not_only_suffix :
    (∀ s1 s2 : String, ∀ q : ℚ, pyFloat (s1 ++ s2) = some q →
      strip_to_float "kV" (s1 ++ "kV" ++ s2) = some q) ∧
    (∀ s1 s2 : String, ∀ q : ℚ, pyFloat (s1 ++ s2) = some q →
      strip_to_float "mA" (s1 ++ "mA" ++ s2) = some q) ∧
    load_test_data sample_fs_prefix_unit "hv_tests/test2.csv" =
      ⟨some "test2.csv", some [sample_dt], some [Rat.divInt 25 2],
        some [Rat.divInt 21 500]⟩ := by
  refine ⟨?_, ?_, by decide⟩
  · intro s1 s2 q hq
    have hchar : ∀ ch ∈ (s1 ++ s2).data, ch ≠ 'k' :=
      pyFloat_no_letter hq (by decide)
    rw [String.data_append] at hchar
    have h1 : ∀ ch ∈ s1.data, ch ≠ 'k' :=
      fun ch hch => hchar ch (List.mem_append_left _ hch)
    have h2 : ∀ ch ∈ s2.data, ch ≠ 'k' :=
      fun ch hch => hchar ch (List.mem_append_right _ hch)
    rw [strip_to_float, removeAll2_kV, String.data_append, String.data_append]
    have hkv : ("kV" : String).data = ['k', 'V'] := rfl
    rw [hkv, List.append_assoc]
    show pyFloat ⟨removeSub2 'k' 'V' (s1.data ++ ('k' :: 'V' :: s2.data))⟩ = some q
    rw [removeSub2_middle h1 h2, ← String.data_append, string_mk_data]
    exact hq
  · intro s1 s2 q hq
    have hchar : ∀ ch ∈ (s1 ++ s2).data, ch ≠ 'm' :=
      pyFloat_no_letter hq (by decide)
    rw [String.data_append] at hchar
    have h1 : ∀ ch ∈ s1.data, ch ≠ 'm' :=
      fun ch hch => hchar ch (List.mem_append_left _ hch)
    have h2 : ∀ ch ∈ s2.data, ch ≠ 'm' :=
      fun ch hch => hchar ch (List.mem_append_right _ hch)
    rw [strip_to_float, removeAll2_mA, String.data_append, String.data_append]
    have hma : ("mA" : String).data = ['m', 'A'] := rfl
    rw [hma, List.append_assoc]
    show pyFloat ⟨removeSub2 'm' 'A' (s1.data ++ ('m' :: 'A' :: s2.data))⟩ = some q
    rw [removeSub2_middle h1 h2, ← String.data_append, string_mk_data]
    exact hq

/-- Witness for C9: an interior occurrence, `"12kV.5"`, strips to `"12.5"`
and parses to 12.5. -/
theorem C9_unit_text_removed_anywhere_witness :
    pyFloat ("12" ++ ".5") = some (Rat.divInt 25 2) ∧
      strip_to_float "kV" ("12" ++ "kV" ++ ".5") = some (Rat.divInt 25 2) :=
  ⟨by decide, C9_unit_text_removed_anywhere_not_only_suffix.1 "12" ".5"
    (Rat.divInt 25 2) (by decide)⟩
